import Mathlib

/-!
Verification of the webtalk TTS core against its specification.

The JavaScript sources are shallowly embedded: JS numbers are modelled as
exact rationals (`ℚ`), JS BigInt as `ℤ`, byte buffers as `List ℕ` with each
element below 256, and JS `Map`s as insertion-ordered association lists.
Each definition is translated from the named source function.
-/

namespace Webtalk

/-- JS `ToIntegerOrInfinity` as used by `DataView.setInt16`: truncation
toward zero. -/
def jsTrunc (q : ℚ) : ℤ := if q < 0 then ⌈q⌉ else ⌊q⌋

/-- JS `Math.round`: round half toward positive infinity. -/
def jsRound (q : ℚ) : ℤ := ⌊q + 1/2⌋

/-- Clipping to [-1, 1], from `Math.max(-1, Math.min(1, s))` in `encodeWav`
(src/unnamed/part_003, line 115). -/
def clip (s : ℚ) : ℚ := max (-1) (min 1 s)

/-- Little-endian 16-bit write: the two bytes `DataView.setUint16(off, n, true)`
stores. -/
def u16le (n : ℕ) : List ℕ := [n % 256, n / 256 % 256]

/-- Little-endian 32-bit write: the four bytes `DataView.setUint32(off, n, true)`
stores. -/
def u32le (n : ℕ) : List ℕ :=
  [n % 256, n / 256 % 256, n / 65536 % 256, n / 16777216 % 256]

/-- Two's-complement representation of an int16 value as an unsigned 16-bit
number, as `DataView.setInt16` stores it. -/
def int16ToU16 (k : ℤ) : ℕ := (k % 65536).toNat

/-- ASCII codes of a header tag string (`writeStr` in part_003). -/
def asciiCodes (s : String) : List ℕ := s.toList.map Char.toNat

/-- One encoded sample of `encodeWav` (part_003 lines 114-117): clip to
[-1, 1], scale negatives by 32768 and non-negatives by 32767, then store via
`setInt16` (truncation toward zero). -/
def encSample (s : ℚ) : ℤ :=
  let c := clip s
  jsTrunc (if c < 0 then c * 32768 else c * 32767)

/-- `encodeWav` from src/unnamed/part_003 lines 94-119: 44-byte canonical RIFF
header followed by one `data` chunk of little-endian 16-bit PCM. -/
def encodeWav (float32Audio : List ℚ) (sampleRate : ℕ) : List ℕ :=
  let dataSize := float32Audio.length * 2
  asciiCodes "RIFF" ++ u32le (36 + dataSize) ++
  asciiCodes "WAVE" ++ asciiCodes "fmt " ++
  u32le 16 ++ u16le 1 ++ u16le 1 ++
  u32le sampleRate ++ u32le (sampleRate * 2) ++
  u16le 2 ++ u16le 16 ++
  asciiCodes "data" ++ u32le dataSize ++
  float32Audio.flatMap (fun s => u16le (int16ToU16 (encSample s)))

/-- Byte read, `DataView.getUint8` (reads in range in all uses below). -/
def getU8 (bytes : List ℕ) (i : ℕ) : ℕ := bytes.getD i 0

/-- Little-endian `DataView.getUint16`. -/
def getU16 (bytes : List ℕ) (i : ℕ) : ℕ :=
  getU8 bytes i + 256 * getU8 bytes (i + 1)

/-- Little-endian `DataView.getUint32`. -/
def getU32 (bytes : List ℕ) (i : ℕ) : ℕ :=
  getU8 bytes i + 256 * getU8 bytes (i + 1) +
  65536 * getU8 bytes (i + 2) + 16777216 * getU8 bytes (i + 3)

/-- Little-endian `DataView.getInt16`: two's-complement reinterpretation. -/
def getI16 (bytes : List ℕ) (i : ℕ) : ℤ :=
  let v := getU16 bytes i
  if v ≥ 32768 then (v : ℤ) - 65536 else (v : ℤ)

/-- IEEE-754 binary32 value of the 32-bit word at offset `i`
(`DataView.getFloat32`); NaN and infinities, which `ℚ` cannot represent,
are mapped to 0 (this branch is unused on 16-bit data). -/
def getF32 (bytes : List ℕ) (i : ℕ) : ℚ :=
  let v := getU32 bytes i
  let sign : ℚ := if v / 2 ^ 31 % 2 = 1 then -1 else 1
  let ex : ℕ := v / 2 ^ 23 % 256
  let frac : ℕ := v % 2 ^ 23
  if ex = 255 then 0
  else if ex = 0 then sign * ((frac : ℚ) / 2 ^ 23) * (1 / 2 ^ 126)
  else sign * (1 + (frac : ℚ) / 2 ^ 23) * 2 ^ ex / 2 ^ 127

/-- Scan of part_003 lines 56-62: from offset 36, find the first occurrence of
the ASCII tag `data` strictly before `byteLength - 8` and return the offset
just past its 8-byte chunk header. -/
def findDataAux (bytes : List ℕ) (i fuel : ℕ) : Option ℕ :=
  match fuel with
  | 0 => none
  | fuel + 1 =>
    if i < bytes.length - 8 then
      if getU8 bytes i = 0x64 ∧ getU8 bytes (i + 1) = 0x61 ∧
         getU8 bytes (i + 2) = 0x74 ∧ getU8 bytes (i + 3) = 0x61 then
        some (i + 8)
      else findDataAux bytes (i + 1) fuel
    else none

/-- Data offset used by `decodeWavToFloat32`: the scan result when the scan
breaks, else the default 44. -/
def findDataOffset (bytes : List ℕ) : ℕ :=
  (findDataAux bytes 36 bytes.length).getD 44

/-- `decodeWavToFloat32` from src/unnamed/part_003 lines 48-77: check the RIFF
tag, read channel count, sample rate and bits per sample from the canonical
header offsets, locate the `data` chunk, and decode channel-0 samples
(16-bit: `int16/32768`; 32-bit float: identity; else unsigned 8-bit:
`(byte-128)/128`). Returns `none` where the JS throws (`Not a WAV file`). -/
def decodeWavToFloat32 (bytes : List ℕ) : Option (List ℚ × ℕ) :=
  if getU8 bytes 0 = 0x52 ∧ getU8 bytes 1 = 0x49 ∧
     getU8 bytes 2 = 0x46 ∧ getU8 bytes 3 = 0x46 then
    let numChannels := getU16 bytes 22
    let sampleRate := getU32 bytes 24
    let bitsPerSample := getU16 bytes 34
    let dataOffset := findDataOffset bytes
    let bytesPerSample := bitsPerSample / 8
    let numSamples := (bytes.length - dataOffset) / (bytesPerSample * numChannels)
    let audio := (List.range numSamples).map (fun i =>
      let o := dataOffset + i * bytesPerSample * numChannels
      if bitsPerSample = 16 then (getI16 bytes o : ℚ) / 32768
      else if bitsPerSample = 32 then getF32 bytes o
      else ((getU8 bytes o : ℚ) - 128) / 128)
    some (audio, sampleRate)
  else none

lemma asciiCodes_RIFF : asciiCodes "RIFF" = [82, 73, 70, 70] := rfl

lemma asciiCodes_WAVE : asciiCodes "WAVE" = [87, 65, 86, 69] := rfl

lemma asciiCodes_fmt : asciiCodes "fmt " = [102, 109, 116, 32] := rfl

lemma asciiCodes_data : asciiCodes "data" = [100, 97, 116, 97] := rfl

lemma u16le_length (n : ℕ) : (u16le n).length = 2 := rfl

lemma u32le_length (n : ℕ) : (u32le n).length = 4 := rfl

/-- The encoded WAV, with the constant header segments evaluated. -/
lemma encodeWav_eq (x : List ℚ) (r : ℕ) :
    encodeWav x r =
      [82, 73, 70, 70] ++ u32le (36 + x.length * 2) ++
      ([87, 65, 86, 69, 102, 109, 116, 32, 16, 0, 0, 0, 1, 0, 1, 0] ++
        (u32le r ++ u32le (r * 2)) ++ [2, 0, 16, 0, 100, 97, 116, 97]) ++
      u32le (x.length * 2) ++
      x.flatMap (fun s => u16le (int16ToU16 (encSample s))) := by
  simp [encodeWav, asciiCodes_RIFF, asciiCodes_WAVE, asciiCodes_fmt,
    asciiCodes_data, u16le, u32le]

lemma flatMap_u16_length (x : List ℚ) :
    (x.flatMap (fun s => u16le (int16ToU16 (encSample s)))).length = 2 * x.length := by
  induction x with
  | nil => rfl
  | cons a t ih =>
    rw [List.flatMap_cons, List.length_append, ih, u16le_length, List.length_cons]
    omega

lemma encodeWav_length (x : List ℚ) (r : ℕ) :
    (encodeWav x r).length = 44 + 2 * x.length := by
  rw [encodeWav_eq]
  simp only [List.length_append, u32le_length, flatMap_u16_length,
    List.length_cons, List.length_nil]


lemma enc_getD_seg0 (x : List ℚ) (r i : ℕ) (h : i < 4) :
    (encodeWav x r).getD i 0 = [82, 73, 70, 70].getD i 0 := by
  rw [encodeWav_eq]
  rw [List.getD_append _ _ _ _ (by simp [u32le_length, flatMap_u16_length]; omega)]
  rw [List.getD_append _ _ _ _ (by simp [u32le_length]; omega)]
  rw [List.getD_append _ _ _ _ (by simp [u32le_length]; omega)]
  rw [List.getD_append _ _ _ _ (by simp [u32le_length]; omega)]

lemma enc_getD_seg2 (x : List ℚ) (r i : ℕ) (h1 : 8 ≤ i) (h2 : i < 24) :
    (encodeWav x r).getD i 0 =
      [87, 65, 86, 69, 102, 109, 116, 32, 16, 0, 0, 0, 1, 0, 1, 0].getD (i - 8) 0 := by
  rw [encodeWav_eq]
  rw [List.getD_append _ _ _ _ (by simp [u32le_length, flatMap_u16_length]; omega)]
  rw [List.getD_append _ _ _ _ (by simp [u32le_length]; omega)]
  rw [List.getD_append_right _ _ _ _ (by simp [u32le_length]; omega)]
  rw [List.getD_append _ _ _ _ (by simp [u32le_length]; omega)]
  rw [List.getD_append _ _ _ _ (by simp [u32le_length]; omega)]
  congr 1

lemma enc_getD_seg3 (x : List ℚ) (r i : ℕ) (h1 : 24 ≤ i) (h2 : i < 28) :
    (encodeWav x r).getD i 0 = (u32le r).getD (i - 24) 0 := by
  rw [encodeWav_eq]
  rw [List.getD_append _ _ _ _ (by simp [u32le_length, flatMap_u16_length]; omega)]
  rw [List.getD_append _ _ _ _ (by simp [u32le_length]; omega)]
  rw [List.getD_append_right _ _ _ _ (by simp [u32le_length]; omega)]
  rw [List.getD_append _ _ _ _ (by simp [u32le_length]; omega)]
  rw [List.getD_append_right _ _ _ _ (by simp [u32le_length]; omega)]
  rw [List.getD_append _ _ _ _ (by simp [u32le_length]; omega)]
  congr 1

lemma enc_getD_seg5 (x : List ℚ) (r i : ℕ) (h1 : 32 ≤ i) (h2 : i < 40) :
    (encodeWav x r).getD i 0 = [2, 0, 16, 0, 100, 97, 116, 97].getD (i - 32) 0 := by
  rw [encodeWav_eq]
  rw [List.getD_append _ _ _ _ (by simp [u32le_length, flatMap_u16_length]; omega)]
  rw [List.getD_append _ _ _ _ (by simp [u32le_length]; omega)]
  rw [List.getD_append_right _ _ _ _ (by simp [u32le_length]; omega)]
  rw [List.getD_append_right _ _ _ _ (by simp [u32le_length]; omega)]
  have h3 : ([87, 65, 86, 69, 102, 109, 116, 32, 16, 0, 0, 0, 1, 0, 1, 0] ++
      (u32le r ++ u32le (r * 2))).length = 24 := by simp [u32le_length]
  rw [h3]
  have h4 : i - ([82, 73, 70, 70] ++ u32le (36 + x.length * 2)).length - 24 = i - 32 := by
    simp [u32le_length]
    omega
  rw [h4]

lemma enc_getD_dataseg (x : List ℚ) (r i : ℕ) (h : 44 ≤ i) :
    (encodeWav x r).getD i 0 =
      (x.flatMap (fun s => u16le (int16ToU16 (encSample s)))).getD (i - 44) 0 := by
  rw [encodeWav_eq]
  rw [List.getD_append_right _ _ _ _ (by simp [u32le_length]; omega)]
  congr 1

lemma enc_riff (x : List ℚ) (r : ℕ) :
    getU8 (encodeWav x r) 0 = 0x52 ∧ getU8 (encodeWav x r) 1 = 0x49 ∧
    getU8 (encodeWav x r) 2 = 0x46 ∧ getU8 (encodeWav x r) 3 = 0x46 := by
  unfold getU8
  rw [enc_getD_seg0 x r 0 (by omega), enc_getD_seg0 x r 1 (by omega),
    enc_getD_seg0 x r 2 (by omega), enc_getD_seg0 x r 3 (by omega)]
  decide

lemma enc_channels (x : List ℚ) (r : ℕ) : getU16 (encodeWav x r) 22 = 1 := by
  unfold getU16 getU8
  rw [enc_getD_seg2 x r 22 (by omega) (by omega), enc_getD_seg2 x r 23 (by omega) (by omega)]
  decide

lemma enc_bits (x : List ℚ) (r : ℕ) : getU16 (encodeWav x r) 34 = 16 := by
  unfold getU16 getU8
  rw [enc_getD_seg5 x r 34 (by omega) (by omega), enc_getD_seg5 x r 35 (by omega) (by omega)]
  decide

lemma enc_rate24000 (x : List ℚ) : getU32 (encodeWav x 24000) 24 = 24000 := by
  unfold getU32 getU8
  rw [enc_getD_seg3 x 24000 24 (by omega) (by omega),
    enc_getD_seg3 x 24000 25 (by omega) (by omega),
    enc_getD_seg3 x 24000 26 (by omega) (by omega),
    enc_getD_seg3 x 24000 27 (by omega) (by omega)]
  decide

lemma enc_findData (x : List ℚ) (r : ℕ) : findDataOffset (encodeWav x r) = 44 := by
  unfold findDataOffset
  rcases Nat.eq_zero_or_pos x.length with h0 | hpos
  · have hx : x = [] := List.length_eq_zero.mp h0
    subst hx
    have hl : (encodeWav ([] : List ℚ) r).length = 44 := by
      rw [encodeWav_length]; rfl
    rw [hl]
    have : findDataAux (encodeWav ([] : List ℚ) r) 36 44 = none := by
      have h36 : ¬ (36 < (encodeWav ([] : List ℚ) r).length - 8) := by
        rw [hl]; omega
      simp [findDataAux, h36]
    rw [this]
    rfl
  · have hl : (encodeWav x r).length = 44 + 2 * x.length := encodeWav_length x r
    rw [hl]
    have hfuel : 44 + 2 * x.length = (43 + 2 * x.length) + 1 := by omega
    rw [hfuel]
    have hcond : 36 < (encodeWav x r).length - 8 := by rw [hl]; omega
    have htag : getU8 (encodeWav x r) 36 = 0x64 ∧ getU8 (encodeWav x r) 37 = 0x61 ∧
        getU8 (encodeWav x r) 38 = 0x74 ∧ getU8 (encodeWav x r) 39 = 0x61 := by
      unfold getU8
      rw [enc_getD_seg5 x r 36 (by omega) (by omega),
        enc_getD_seg5 x r 37 (by omega) (by omega),
        enc_getD_seg5 x r 38 (by omega) (by omega),
        enc_getD_seg5 x r 39 (by omega) (by omega)]
      decide
    simp [findDataAux, hcond, htag.1, htag.2.1, htag.2.2.1, htag.2.2.2]

lemma flatMap_u16_getD (x : List ℚ) (i : ℕ) (hi : i < x.length) :
    (x.flatMap (fun s => u16le (int16ToU16 (encSample s)))).getD (2 * i) 0
        = int16ToU16 (encSample (x.getD i 0)) % 256 ∧
    (x.flatMap (fun s => u16le (int16ToU16 (encSample s)))).getD (2 * i + 1) 0
        = int16ToU16 (encSample (x.getD i 0)) / 256 % 256 := by
  induction x generalizing i with
  | nil => simp at hi
  | cons a t ih =>
    rw [List.flatMap_cons]
    cases i with
    | zero => simp [u16le]
    | succ j =>
      have hj : j < t.length := by simpa using hi
      have h2 : 2 * (j + 1) = (u16le (int16ToU16 (encSample a))).length + (2 * j) := by
        rw [u16le_length]; omega
      have h3 : 2 * (j + 1) + 1 = (u16le (int16ToU16 (encSample a))).length + (2 * j + 1) := by
        rw [u16le_length]; omega
      constructor
      · rw [h2, List.getD_append_right _ _ _ _ (by omega), Nat.add_sub_cancel_left]
        simpa using (ih j hj).1
      · rw [h3, List.getD_append_right _ _ _ _ (by omega), Nat.add_sub_cancel_left]
        simpa using (ih j hj).2

lemma clip_bounds (s : ℚ) : -1 ≤ clip s ∧ clip s ≤ 1 := by
  unfold clip
  constructor
  · exact le_max_left _ _
  · exact max_le (by norm_num) (min_le_left _ _)

lemma encSample_range (s : ℚ) : -32768 ≤ encSample s ∧ encSample s ≤ 32767 := by
  obtain ⟨hc1, hc2⟩ := clip_bounds s
  simp only [encSample, jsTrunc]
  by_cases h : clip s < 0
  · simp only [if_pos h]
    rw [if_pos (show clip s * 32768 < 0 by nlinarith)]
    constructor
    · have hle : (-32768 : ℚ) ≤ (⌈clip s * 32768⌉ : ℚ) :=
        le_trans (by nlinarith) (Int.le_ceil _)
      exact_mod_cast hle
    · have hle : (⌈clip s * 32768⌉ : ℤ) ≤ 0 := Int.ceil_le.mpr (by push_cast; nlinarith)
      omega
  · push_neg at h
    simp only [if_neg (not_lt.mpr h)]
    rw [if_neg (show ¬ clip s * 32767 < 0 by push_neg; nlinarith)]
    constructor
    · have : (0 : ℤ) ≤ ⌊clip s * 32767⌋ := Int.floor_nonneg.mpr (by nlinarith)
      omega
    · have hle : (⌊clip s * 32767⌋ : ℚ) ≤ 32767 := le_trans (Int.floor_le _) (by nlinarith)
      exact_mod_cast hle

lemma encSample_close (s : ℚ) :
    |(encSample s : ℚ) / 32768 - clip s| ≤ 1 / 16384 := by
  obtain ⟨hc1, hc2⟩ := clip_bounds s
  simp only [encSample, jsTrunc]
  by_cases h : clip s < 0
  · simp only [if_pos h]
    rw [if_pos (show clip s * 32768 < 0 by nlinarith)]
    have h1 : clip s * 32768 ≤ (⌈clip s * 32768⌉ : ℚ) := Int.le_ceil _
    have h2 : (⌈clip s * 32768⌉ : ℚ) < clip s * 32768 + 1 := Int.ceil_lt_add_one _
    rw [abs_le]
    constructor <;> nlinarith
  · push_neg at h
    simp only [if_neg (not_lt.mpr h)]
    rw [if_neg (show ¬ clip s * 32767 < 0 by push_neg; nlinarith)]
    have h1 : (⌊clip s * 32767⌋ : ℚ) ≤ clip s * 32767 := Int.floor_le _
    have h2 : clip s * 32767 - 1 < (⌊clip s * 32767⌋ : ℚ) := Int.sub_one_lt_floor _
    rw [abs_le]
    constructor <;> nlinarith

lemma getI16_enc (x : List ℚ) (r i : ℕ) (hi : i < x.length) :
    getI16 (encodeWav x r) (44 + i * 2) = encSample (x.getD i 0) := by
  have hd := flatMap_u16_getD x i hi
  set k := encSample (x.getD i 0) with hk
  have hb0 : getU8 (encodeWav x r) (44 + i * 2) = int16ToU16 k % 256 := by
    unfold getU8
    rw [enc_getD_dataseg x r _ (by omega)]
    have he : 44 + i * 2 - 44 = 2 * i := by omega
    rw [he]
    exact hd.1
  have hb1 : getU8 (encodeWav x r) (44 + i * 2 + 1) = int16ToU16 k / 256 % 256 := by
    unfold getU8
    rw [enc_getD_dataseg x r _ (by omega)]
    have he : 44 + i * 2 + 1 - 44 = 2 * i + 1 := by omega
    rw [he]
    exact hd.2
  have hm : int16ToU16 k < 65536 := by
    unfold int16ToU16
    have h1 := Int.emod_lt_of_pos k (show (0 : ℤ) < 65536 by norm_num)
    have h2 := Int.emod_nonneg k (show (65536 : ℤ) ≠ 0 by norm_num)
    omega
  have hu : getU16 (encodeWav x r) (44 + i * 2) = int16ToU16 k := by
    unfold getU16
    rw [hb0, hb1]
    omega
  obtain ⟨hr1, hr2⟩ := encSample_range (x.getD i 0)
  rw [← hk] at hr1 hr2
  unfold getI16
  rw [hu]
  unfold int16ToU16
  have h1 := Int.emod_nonneg k (show (65536 : ℤ) ≠ 0 by norm_num)
  by_cases hc : (k % 65536).toNat ≥ 32768 <;> simp [hc] <;> omega

/-- Decoding an encoded 24 kHz WAV yields exactly the truncated-and-rescaled
samples. -/
lemma decode_enc (x : List ℚ) :
    decodeWavToFloat32 (encodeWav x 24000) =
      some ((List.range x.length).map
        (fun j => (encSample (x.getD j 0) : ℚ) / 32768), 24000) := by
  obtain ⟨r0, r1, r2, r3⟩ := enc_riff x 24000
  simp only [decodeWavToFloat32]
  rw [if_pos ⟨r0, r1, r2, r3⟩]
  simp only [enc_channels, enc_bits, enc_rate24000, enc_findData, encodeWav_length]
  have hns : (44 + 2 * x.length - 44) / (16 / 8 * 1) = x.length := by omega
  rw [hns]
  simp only [if_true, Option.some.injEq, Prod.mk.injEq]
  refine ⟨?_, trivial⟩
  apply List.map_congr_left
  intro j hj
  have hj2 : j < x.length := List.mem_range.mp hj
  have hidx : 44 + j * (16 / 8) * 1 = 44 + j * 2 := by omega
  rw [hidx, getI16_enc x 24000 j hj2]

/-- C5, amended. `decodeWavToFloat32 ∘ encodeWav` at 24 kHz reproduces every
clipped input sample with absolute error at most 1/16384 (the encoder stores
`s ≥ 0` as `trunc(s*32767)` via `setInt16`, so truncation plus the asymmetric
scale can exceed the claimed 1/32767, but never 1/16384). -/
theorem c5_wav_round_trip (x : List ℚ) (i : ℕ) (hi : i < x.length) :
    ∃ audio, decodeWavToFloat32 (encodeWav x 24000) = some (audio, 24000) ∧
      audio.length = x.length ∧
      |audio.getD i 0 - clip (x.getD i 0)| ≤ 1 / 16384 := by
  refine ⟨(List.range x.length).map (fun j => (encSample (x.getD j 0) : ℚ) / 32768),
    decode_enc x, by simp, ?_⟩
  have hg : ((List.range x.length).map
      (fun j => (encSample (x.getD j 0) : ℚ) / 32768)).getD i 0
      = (encSample (x.getD i 0) : ℚ) / 32768 := by
    rw [List.getD_eq_getElem _ _ (by simpa using hi)]
    simp
  rw [hg]
  exact encSample_close (x.getD i 0)

/-- C5 witness: the round-trip theorem instantiated at the one-sample input
`[1/2]`. -/
theorem c5_wav_round_trip_witness :
    (0 : ℕ) < ([(1 : ℚ)/2] : List ℚ).length ∧
    ∃ audio, decodeWavToFloat32 (encodeWav [(1 : ℚ)/2] 24000) = some (audio, 24000) ∧
      audio.length = ([(1 : ℚ)/2] : List ℚ).length ∧
      |audio.getD 0 0 - clip (([(1 : ℚ)/2] : List ℚ).getD 0 0)| ≤ 1 / 16384 :=
  ⟨by decide, c5_wav_round_trip [(1 : ℚ)/2] 0 (by decide)⟩

/-- C5 counterexample to the claimed 1/32767 bound: for the single sample
`0.7` the decoded value is `22936/32768 = 2867/4096`, and
`|2867/4096 - 0.7| = 1/20480 > 1/32767`. -/
theorem c5_wav_round_trip_counterexample :
    decodeWavToFloat32 (encodeWav [(7 : ℚ)/10] 24000) = some ([(2867 : ℚ)/4096], 24000) ∧
    ¬ |(2867 : ℚ)/4096 - clip ((7 : ℚ)/10)| ≤ 1 / 32767 := by
  have hc : clip ((7 : ℚ)/10) = 7/10 := by norm_num [clip]
  have h1 : encSample ((7 : ℚ)/10) = 22936 := by
    simp only [encSample, jsTrunc, hc]
    rw [if_neg (by norm_num), if_neg (by norm_num)]
    rw [show (7 : ℚ)/10 * 32767 = 229369/10 by norm_num]
    rw [Int.floor_eq_iff]
    constructor <;> norm_num
  constructor
  · rw [decode_enc]
    rw [show List.range ([(7 : ℚ)/10] : List ℚ).length = [0] from rfl]
    simp [h1]
    norm_num
  · rw [hc, abs_le]
    norm_num

/-- Terminal sentence punctuation, the character class `[.!?]`. -/
def isPunct (c : Char) : Bool := c = '.' || c = '!' || c = '?'

/-- The JS `\s` class restricted to the whitespace characters occurring in
this code base (space, tab, LF, CR, VT, FF, NBSP). -/
def jsSpace (c : Char) : Bool :=
  c = ' ' || c = '\t' || c = '\n' || c = '\r' ||
  c = Char.ofNat 11 || c = Char.ofNat 12 || c = Char.ofNat 160

/-- JS `String.prototype.trim`: drop whitespace from both ends. -/
def trimJs (cs : List Char) : List Char :=
  ((cs.dropWhile jsSpace).reverse.dropWhile jsSpace).reverse

/-- One leftmost match of the server-tts-service sentence regex
`[^.!?]+[.!?]+[\s]?|[^.!?]+$` (src/unnamed/part_006 line 374): a nonempty run
of non-terminators, then either a nonempty punctuation run plus at most one
whitespace character, or end of input. Returns the match and the rest. -/
def svcMatchOne (cs : List Char) : Option (List Char × List Char) :=
  let a := cs.takeWhile (fun c => ¬ isPunct c)
  let rest := cs.dropWhile (fun c => ¬ isPunct c)
  if a.isEmpty then none
  else
    match rest with
    | [] => some (a, [])
    | _ =>
      let b := rest.takeWhile isPunct
      let rest2 := rest.dropWhile isPunct
      match rest2 with
      | c :: rest3 => if jsSpace c then some (a ++ b ++ [c], rest3) else some (a ++ b, rest2)
      | [] => some (a ++ b, [])

/-- Global scan (`String.prototype.match` with the `g` flag): collect
successive leftmost matches, moving one character forward where no match
starts. Fuel-driven; the initial fuel `cs.length + 1` always suffices since
every iteration consumes at least one character. -/
def svcScanAux (fuel : ℕ) (cs : List Char) : List (List Char) :=
  match fuel with
  | 0 => []
  | fuel + 1 =>
    match cs with
    | [] => []
    | c :: cs2 =>
      match svcMatchOne (c :: cs2) with
      | some (m, rest) => m :: svcScanAux fuel rest
      | none => svcScanAux fuel cs2

/-- `splitSentences` from src/unnamed/part_006 lines 373-377: regex scan; if
no match, the whole input is one sentence; else trim each match and drop
empties. -/
def splitSentencesSvc (s : String) : List String :=
  let raw := svcScanAux (s.toList.length + 1) s.toList
  if raw.isEmpty then [s]
  else ((raw.map (fun m => (trimJs m).asString)).filter (fun t => ¬ t.isEmpty))

/-- Atom consumption of the speech.js sentence regex
`(?:[^.!?]|[.!?](?!\s))+...` (src/speech.js line 120): a maximal run of
characters each of which is a non-terminator, or a terminator whose lookahead
is not whitespace (end of input passes the lookahead). Returns the consumed
run and the rest. -/
def spTakeAtoms : List Char → List Char × List Char
  | [] => ([], [])
  | c :: rest =>
    if ¬ isPunct c then
      let p := spTakeAtoms rest
      (c :: p.1, p.2)
    else
      match rest with
      | [] => ([c], [])
      | d :: _ =>
        if jsSpace d then ([], c :: rest)
        else
          let p := spTakeAtoms rest
          (c :: p.1, p.2)

/-- One leftmost match of the speech.js regex
`(?:[^.!?]|[.!?](?!\s))+[.!?]*(?:\s+|$)`: at least one atom, then a greedy
punctuation run, then either a nonempty whitespace run or end of input. -/
def spMatchOne (cs : List Char) : Option (List Char × List Char) :=
  let p := spTakeAtoms cs
  if p.1.isEmpty then none
  else
    let b := p.2.takeWhile isPunct
    let rest2 := p.2.dropWhile isPunct
    let w := rest2.takeWhile jsSpace
    let rest3 := rest2.dropWhile jsSpace
    if ¬ w.isEmpty then some (p.1 ++ b ++ w, rest3)
    else if rest2.isEmpty then some (p.1 ++ b, rest2)
    else none

/-- Global scan for the speech.js regex, as in `svcScanAux`. -/
def spScanAux (fuel : ℕ) (cs : List Char) : List (List Char) :=
  match fuel with
  | 0 => []
  | fuel + 1 =>
    match cs with
    | [] => []
    | c :: cs2 =>
      match spMatchOne (c :: cs2) with
      | some (m, rest) => m :: spScanAux fuel rest
      | none => spScanAux fuel cs2

/-- `splitSentences` from src/speech.js lines 117-121: the whitespace-lookahead
regex scan; trim matches and drop empties; whole input if no match. -/
def splitSentencesSpeech (s : String) : List String :=
  let raw := spScanAux (s.toList.length + 1) s.toList
  if raw.isEmpty then [s]
  else ((raw.map (fun m => (trimJs m).asString)).filter (fun t => ¬ t.isEmpty))

/-- C6 counterexample: the server-tts-service `splitSentences`
(src/unnamed/part_006 lines 373-377), also cited by the claim, does not
require whitespace after terminal punctuation, so it breaks the filename:
`"Open server.js now."` yields two sentences, not one. -/
theorem c6_split_filename_safe_counterexample :
    splitSentencesSvc "Open server.js now." = ["Open server.", "js now."] ∧
    splitSentencesSvc "Open server.js now." ≠ ["Open server.js now."] := by
  constructor
  · decide
  · decide

/-- C6, amended. The speech.js `splitSentences` (src/speech.js lines 117-121),
whose regex requires whitespace after terminal punctuation, returns exactly
the one trimmed, non-empty sentence `"Open server.js now."`; the
server-tts-service `splitSentences` (src/unnamed/part_006), which does not
require whitespace, splits the same input into `"Open server."` and
`"js now."`. -/
theorem c6_split_filename_safe :
    splitSentencesSpeech "Open server.js now." = ["Open server.js now."] ∧
    (trimJs ("Open server.js now.").toList).asString = "Open server.js now." ∧
    ¬ ("Open server.js now." : String).isEmpty ∧
    splitSentencesSvc "Open server.js now." = ["Open server.", "js now."] := by
  refine ⟨by decide, by decide, by decide, by decide⟩

/-- Byte buffer stored in the synthesis-result cache; `.length` is the JS
`Buffer.length`. -/
abbrev Buf := List ℕ

/-- The synthesis-result cache: a JS `Map` (insertion-ordered association
list, oldest first) together with the running byte counter `ttsCacheBytes`
(src/unnamed/part_006 lines 116-117). -/
structure TtsCache where
  entries : List (String × Buf)
  bytes : ℤ

/-- `TTS_CACHE_MAX_BYTES = 10 * 1024 * 1024` (part_006 line 90). -/
def TTS_CACHE_MAX_BYTES : ℤ := 10 * 1024 * 1024

/-- `Map.prototype.get`: first (only) entry with the key. -/
def lookupBuf : List (String × Buf) → String → Option Buf
  | [], _ => none
  | (k2, b) :: t, k => if k2 = k then some b else lookupBuf t k

/-- `Map.prototype.delete`: remove the entry with the key, keeping order. -/
def eraseKey : List (String × Buf) → String → List (String × Buf)
  | [], _ => []
  | (k2, b) :: t, k => if k2 = k then t else (k2, b) :: eraseKey t k

/-- The eviction loop of `cachePut` (part_006 lines 354-358): while the new
buffer would overflow `TTS_CACHE_MAX_BYTES` and the cache is non-empty, evict
the insertion-order-oldest entry and deduct its length. -/
def evictLoop (bytes : ℤ) (es : List (String × Buf)) (need : ℤ) : ℤ × List (String × Buf) :=
  match es with
  | [] => (bytes, [])
  | (k, b) :: t =>
    if bytes + need > TTS_CACHE_MAX_BYTES then evictLoop (bytes - b.length) t need
    else (bytes, (k, b) :: t)

/-- First step of `cachePut` (part_006 lines 350-353): if the key is present,
remove its entry and deduct its byte length. -/
def cachePutPre (st : TtsCache) (key : String) : TtsCache :=
  match lookupBuf st.entries key with
  | some old => TtsCache.mk (eraseKey st.entries key) (st.bytes - old.length)
  | none => st

/-- `cachePut` from src/unnamed/part_006 lines 349-361: remove an existing
entry for the key (deducting its bytes), evict oldest entries while the new
buffer would overflow, then append the new entry and add its bytes. -/
def cachePut (st : TtsCache) (key : String) (buf : Buf) : TtsCache :=
  let st1 := cachePutPre st key
  let ev := evictLoop st1.bytes st1.entries buf.length
  TtsCache.mk (ev.2 ++ [(key, buf)]) (ev.1 + buf.length)

/-- `ttsCacheGet` from src/unnamed/part_006 lines 367-371: on a hit, delete
and re-insert the key so it becomes most recently used; bytes unchanged. -/
def ttsCacheGet (st : TtsCache) (key : String) : Option Buf × TtsCache :=
  match lookupBuf st.entries key with
  | some cached => (some cached, TtsCache.mk (eraseKey st.entries key ++ [(key, cached)]) st.bytes)
  | none => (none, st)

/-- The cache byte-count invariant: `ttsCacheBytes` is the sum of the lengths
of all stored buffers. -/
def cacheInv (st : TtsCache) : Prop :=
  st.bytes = (st.entries.map (fun e => (e.2.length : ℤ))).sum

lemma eraseKey_sum (es : List (String × Buf)) (k : String) (old : Buf)
    (h : lookupBuf es k = some old) :
    ((eraseKey es k).map (fun e => (e.2.length : ℤ))).sum
      = (es.map (fun e => (e.2.length : ℤ))).sum - old.length := by
  induction es with
  | nil => simp [lookupBuf] at h
  | cons hd t ih =>
    obtain ⟨k2, b⟩ := hd
    by_cases hk : k2 = k
    · simp only [lookupBuf, if_pos hk] at h
      obtain rfl : b = old := by injection h
      simp [eraseKey, if_pos hk]
    · simp only [lookupBuf, if_neg hk] at h
      simp [eraseKey, if_neg hk, ih h]
      ring

lemma cachePutPre_inv (st : TtsCache) (key : String) (hinv : cacheInv st) :
    cacheInv (cachePutPre st key) := by
  unfold cachePutPre
  cases hl : lookupBuf st.entries key with
  | none => simpa using hinv
  | some old =>
    unfold cacheInv at hinv ⊢
    simp only []
    rw [eraseKey_sum st.entries key old hl]
    omega

lemma evictLoop_sum (es : List (String × Buf)) (bytes need : ℤ)
    (h : bytes = (es.map (fun e => (e.2.length : ℤ))).sum) :
    (evictLoop bytes es need).1
      = ((evictLoop bytes es need).2.map (fun e => (e.2.length : ℤ))).sum := by
  induction es generalizing bytes with
  | nil => simpa [evictLoop] using h
  | cons hd t ih =>
    obtain ⟨k, b⟩ := hd
    simp only [evictLoop]
    by_cases hc : bytes + need > TTS_CACHE_MAX_BYTES
    · rw [if_pos hc]
      apply ih
      simp at h
      omega
    · rw [if_neg hc]
      simpa using h

lemma ttsCacheGet_hit (st : TtsCache) (key : String) (b2 : Buf)
    (h : lookupBuf st.entries key = some b2) :
    ttsCacheGet st key
      = (some b2, TtsCache.mk (eraseKey st.entries key ++ [(key, b2)]) st.bytes) := by
  unfold ttsCacheGet
  rw [h]

lemma ttsCacheGet_miss (st : TtsCache) (key : String)
    (h : lookupBuf st.entries key = none) :
    ttsCacheGet st key = (none, st) := by
  unfold ttsCacheGet
  rw [h]

lemma evictLoop_post (es : List (String × Buf)) (bytes need : ℤ) :
    (evictLoop bytes es need).1 + need ≤ TTS_CACHE_MAX_BYTES ∨
      (evictLoop bytes es need).2 = [] := by
  induction es generalizing bytes with
  | nil => simp [evictLoop]
  | cons hd t ih =>
    obtain ⟨k, b⟩ := hd
    simp only [evictLoop]
    by_cases hc : bytes + need > TTS_CACHE_MAX_BYTES
    · rw [if_pos hc]
      exact ih _
    · rw [if_neg hc]
      left
      omega

/-- C10. The cache invariant `ttsCacheBytes = Σ buffer lengths` is preserved
by `cachePut` and `ttsCacheGet`; after `cachePut` either the total fits in
`TTS_CACHE_MAX_BYTES` or the newly inserted entry is the only one left (so
the bound is exceeded only by a single oversized entry); and a `ttsCacheGet`
hit re-inserts the key at the most-recently-used (last) position with the
byte counter unchanged. -/
theorem c10_cache_invariant (st : TtsCache) (key : String) (buf : Buf)
    (hinv : cacheInv st) :
    cacheInv (cachePut st key buf) ∧
    ((cachePut st key buf).bytes ≤ TTS_CACHE_MAX_BYTES ∨
      (cachePut st key buf).entries = [(key, buf)]) ∧
    cacheInv (ttsCacheGet st key).2 ∧
    (ttsCacheGet st key).2.bytes = st.bytes ∧
    (∀ b2, (ttsCacheGet st key).1 = some b2 →
      (ttsCacheGet st key).2.entries.getLast? = some (key, b2)) := by
  have h1 := cachePutPre_inv st key hinv
  have hsum := evictLoop_sum (cachePutPre st key).entries (cachePutPre st key).bytes
    buf.length h1
  have hpost := evictLoop_post (cachePutPre st key).entries (cachePutPre st key).bytes
    buf.length
  refine ⟨?_, ?_, ?_, ?_, ?_⟩
  · unfold cacheInv cachePut
    simp only []
    rw [List.map_append, List.sum_append, ← hsum]
    simp
  · unfold cachePut
    simp only []
    rcases hpost with h | h
    · left
      omega
    · right
      rw [h]
      rfl
  · cases hl : lookupBuf st.entries key with
    | none => rw [ttsCacheGet_miss st key hl]; exact hinv
    | some cached =>
      rw [ttsCacheGet_hit st key cached hl]
      unfold cacheInv at hinv ⊢
      simp only [List.map_append, List.sum_append]
      rw [eraseKey_sum st.entries key cached hl]
      simp
      omega
  · cases hl : lookupBuf st.entries key with
    | none => rw [ttsCacheGet_miss st key hl]
    | some cached => rw [ttsCacheGet_hit st key cached hl]
  · intro b2 hb
    cases hl : lookupBuf st.entries key with
    | none =>
      rw [ttsCacheGet_miss st key hl] at hb
      simp at hb
    | some cached =>
      rw [ttsCacheGet_hit st key cached hl] at hb ⊢
      obtain rfl : cached = b2 := by injection hb
      simp

/-- C10 witness: the invariant theorem applied to the empty cache with one
three-byte buffer. -/
theorem c10_cache_invariant_witness :
    cacheInv (cachePut (TtsCache.mk [] 0) "a" [1, 2, 3]) ∧
    ((cachePut (TtsCache.mk [] 0) "a" [1, 2, 3]).bytes ≤ TTS_CACHE_MAX_BYTES ∨
      (cachePut (TtsCache.mk [] 0) "a" [1, 2, 3]).entries = [("a", [1, 2, 3])]) ∧
    cacheInv (ttsCacheGet (TtsCache.mk [] 0) "a").2 ∧
    (ttsCacheGet (TtsCache.mk [] 0) "a").2.bytes = (TtsCache.mk [] 0).bytes ∧
    (∀ b2, (ttsCacheGet (TtsCache.mk [] 0) "a").1 = some b2 →
      (ttsCacheGet (TtsCache.mk [] 0) "a").2.entries.getLast? = some ("a", b2)) :=
  c10_cache_invariant (TtsCache.mk [] 0) "a" [1, 2, 3] (by simp [cacheInv])

/-- `EOS_THRESHOLD = -4.0`: synthesis stops when the EOS logit exceeds it
(tts-worker.js lines 389 and 409). -/
def EOS_THRESHOLD : ℚ := -4

/-- `DECODE_BATCH = 12`: latents per decoded chunk (tts-worker.js line 389). -/
def DECODE_BATCH : ℕ := 12

/-- `MAX_FRAMES = 500` (tts-worker.js line 19). -/
def MAX_FRAMES : ℕ := 500

/-- Result of the autoregressive loop of `runInference`: the emitted audio
chunks in order, the latents still accumulated at exit, and a per-step trace
of (eos logit, latent count after the push, chunk emitted?). -/
structure ArOut where
  chunks : List (List ℚ)
  latents : List (List ℚ)
  trace : List (ℚ × ℕ × Bool)

/-- The autoregressive loop of `runInference` (tts-worker.js lines 338-413),
with the backbone, flow refiner and decoder sessions abstracted as oracles:
`gen step` is `isGenerating` at the loop test, `eos step` the step's
`eos_logit`, `refine step` the flow-refined latent appended to `latents`, and
`decode (n, flat)` the decoder output on the concatenated `[1, n, 32]` batch.
Each step appends the refined latent, decodes and emits exactly when
`latents.length ≥ 12 ∨ eos > -4`, and breaks after that when `eos > -4`.
Nothing is decoded or emitted after the loop. -/
def arLoopAux (gen : ℕ → Bool) (eos : ℕ → ℚ) (refine : ℕ → List ℚ)
    (decode : ℕ × List ℚ → List ℚ) :
    ℕ → ℕ → List (List ℚ) → List (List ℚ) → List (ℚ × ℕ × Bool) → ArOut
  | _, 0, latents, chunks, trace => ArOut.mk chunks latents trace
  | step, fuel + 1, latents, chunks, trace =>
    if gen step then
      let e := eos step
      let x := refine step
      let latents1 := latents ++ [x]
      let hit : Bool := decide (DECODE_BATCH ≤ latents1.length ∨ EOS_THRESHOLD < e)
      let chunks1 :=
        if hit then chunks ++ [decode (latents1.length, latents1.flatten)] else chunks
      let latents2 := if hit then [] else latents1
      let trace1 := trace ++ [(e, latents1.length, hit)]
      if EOS_THRESHOLD < e then ArOut.mk chunks1 latents2 trace1
      else arLoopAux gen eos refine decode (step + 1) fuel latents2 chunks1 trace1
    else ArOut.mk chunks latents trace

/-- The whole AR phase: loop from step 0 for at most `MAX_FRAMES` steps. -/
def runInferenceAR (gen : ℕ → Bool) (eos : ℕ → ℚ) (refine : ℕ → List ℚ)
    (decode : ℕ × List ℚ → List ℚ) : ArOut :=
  arLoopAux gen eos refine decode 0 MAX_FRAMES [] [] []

lemma arLoopAux_trace_inv (gen : ℕ → Bool) (eos : ℕ → ℚ) (refine : ℕ → List ℚ)
    (decode : ℕ × List ℚ → List ℚ) (fuel step : ℕ)
    (latents chunks : List (List ℚ)) (trace : List (ℚ × ℕ × Bool))
    (h : ∀ t ∈ trace, t.2.2 = decide (DECODE_BATCH ≤ t.2.1 ∨ EOS_THRESHOLD < t.1)) :
    ∀ t ∈ (arLoopAux gen eos refine decode step fuel latents chunks trace).trace,
      t.2.2 = decide (DECODE_BATCH ≤ t.2.1 ∨ EOS_THRESHOLD < t.1) := by
  induction fuel generalizing step latents chunks trace with
  | zero => simpa [arLoopAux] using h
  | succ fuel ih =>
    simp only [arLoopAux]
    by_cases hg : gen step
    · rw [if_pos hg]
      have hstep : ∀ t ∈ trace ++ [(eos step, (latents ++ [refine step]).length,
          decide (DECODE_BATCH ≤ (latents ++ [refine step]).length ∨
            EOS_THRESHOLD < eos step))],
          t.2.2 = decide (DECODE_BATCH ≤ t.2.1 ∨ EOS_THRESHOLD < t.1) := by
        intro t ht
        rcases List.mem_append.mp ht with h1 | h1
        · exact h t h1
        · simp at h1
          subst h1
          simp [Bool.decide_or]
      by_cases he : EOS_THRESHOLD < eos step
      · rw [if_pos he]
        exact hstep
      · rw [if_neg he]
        exact ih (step + 1) _ _ _ hstep
    · rw [if_neg hg]
      exact h

lemma arLoopAux_chunks_count (gen : ℕ → Bool) (eos : ℕ → ℚ) (refine : ℕ → List ℚ)
    (decode : ℕ × List ℚ → List ℚ) (fuel step : ℕ)
    (latents chunks : List (List ℚ)) (trace : List (ℚ × ℕ × Bool))
    (h : chunks.length = (trace.filter (fun t => t.2.2)).length) :
    (arLoopAux gen eos refine decode step fuel latents chunks trace).chunks.length
      = ((arLoopAux gen eos refine decode step fuel latents chunks trace).trace.filter
          (fun t => t.2.2)).length := by
  induction fuel generalizing step latents chunks trace with
  | zero => simpa [arLoopAux] using h
  | succ fuel ih =>
    simp only [arLoopAux]
    by_cases hg : gen step
    · rw [if_pos hg]
      set hit := decide (DECODE_BATCH ≤ (latents ++ [refine step]).length ∨
        EOS_THRESHOLD < eos step) with hhit
      have hstep :
          (if hit then chunks ++ [decode ((latents ++ [refine step]).length,
              (latents ++ [refine step]).flatten)] else chunks).length
            = ((trace ++ [(eos step, (latents ++ [refine step]).length, hit)]).filter
                (fun t => t.2.2)).length := by
        rw [List.filter_append]
        cases hit with
        | true => simp [h]
        | false => simp [h]
      by_cases he : EOS_THRESHOLD < eos step
      · rw [if_pos he]
        exact hstep
      · rw [if_neg he]
        exact ih (step + 1) _ _ _ hstep
    · rw [if_neg hg]
      exact h

lemma arLoopAux_succ (gen : ℕ → Bool) (eos : ℕ → ℚ) (refine : ℕ → List ℚ)
    (decode : ℕ × List ℚ → List ℚ) (step fuel : ℕ)
    (latents chunks : List (List ℚ)) (trace : List (ℚ × ℕ × Bool)) :
    arLoopAux gen eos refine decode step (fuel + 1) latents chunks trace
      = if gen step then
          (let e := eos step
           let x := refine step
           let latents1 := latents ++ [x]
           let hit : Bool := decide (DECODE_BATCH ≤ latents1.length ∨ EOS_THRESHOLD < e)
           let chunks1 :=
             if hit then chunks ++ [decode (latents1.length, latents1.flatten)] else chunks
           let latents2 := if hit then [] else latents1
           let trace1 := trace ++ [(e, latents1.length, hit)]
           if EOS_THRESHOLD < e then ArOut.mk chunks1 latents2 trace1
           else arLoopAux gen eos refine decode (step + 1) fuel latents2 chunks1 trace1)
        else ArOut.mk chunks latents trace := rfl

/-- C4. At every step of the AR loop, a batch is decoded and emitted exactly
when the latent count after the push has reached `DECODE_BATCH` or the EOS
logit exceeds `EOS_THRESHOLD` (so a step that stops on EOS decodes and emits
before stopping), and when the EOS logit exceeds the threshold already at
step 0 at least one decoded chunk is emitted. -/
theorem c4_decode_batch_eos (gen : ℕ → Bool) (eos : ℕ → ℚ) (refine : ℕ → List ℚ)
    (decode : ℕ × List ℚ → List ℚ) :
    (∀ t ∈ (runInferenceAR gen eos refine decode).trace,
      t.2.2 = decide (DECODE_BATCH ≤ t.2.1 ∨ EOS_THRESHOLD < t.1)) ∧
    (gen 0 = true → EOS_THRESHOLD < eos 0 →
      (runInferenceAR gen eos refine decode).chunks ≠ []) := by
  constructor
  · exact arLoopAux_trace_inv gen eos refine decode MAX_FRAMES 0 [] [] [] (by simp)
  · intro hg he
    unfold runInferenceAR
    rw [show MAX_FRAMES = 499 + 1 from rfl]
    rw [arLoopAux_succ]
    rw [if_pos hg]
    have hhit : decide (DECODE_BATCH ≤ (([] : List (List ℚ)) ++ [refine 0]).length ∨
        EOS_THRESHOLD < eos 0) = true := decide_eq_true (Or.inr he)
    simp only [hhit, if_true, if_pos he]
    simp

/-- C4 witness: a backbone whose EOS logit exceeds the threshold at step 0
emits a chunk. -/
theorem c4_decode_batch_eos_witness :
    (runInferenceAR (fun _ => true) (fun _ => 0) (fun _ => [])
      (fun p => [(p.1 : ℚ)])).chunks ≠ [] :=
  (c4_decode_batch_eos (fun _ => true) (fun _ => 0) (fun _ => [])
    (fun p => [(p.1 : ℚ)])).2 rfl (by norm_num [EOS_THRESHOLD])

/-- C2, amended. Chunks are decoded and emitted only inside the AR loop, at
exactly the steps where the decode condition held: the number of emitted
chunks equals the number of emitting steps in the trace. Latents still
accumulated when the loop exits are discarded; no remainder chunk is decoded
or emitted after the loop. -/
theorem c2_no_remainder_flush (gen : ℕ → Bool) (eos : ℕ → ℚ) (refine : ℕ → List ℚ)
    (decode : ℕ × List ℚ → List ℚ) :
    (runInferenceAR gen eos refine decode).chunks.length
      = ((runInferenceAR gen eos refine decode).trace.filter (fun t => t.2.2)).length :=
  arLoopAux_chunks_count gen eos refine decode MAX_FRAMES 0 [] [] [] (by simp)

/-- C2 counterexample: cancelling generation between iterations (after three
steps whose EOS logit stays below the threshold) exits the loop with three
accumulated latents, and no chunk is decoded or emitted at all - the
remainder is not flushed after the loop. -/
theorem c2_no_remainder_flush_counterexample :
    (runInferenceAR (fun step => decide (step < 3)) (fun _ => -5) (fun _ => [])
      (fun p => [(p.1 : ℚ)])).latents ≠ [] ∧
    (runInferenceAR (fun step => decide (step < 3)) (fun _ => -5) (fun _ => [])
      (fun p => [(p.1 : ℚ)])).chunks = [] := by
  constructor
  · decide
  · decide

/-- Tensor dtypes used by the state bundle. -/
inductive Dty
  | f32
  | i64
deriving DecidableEq

/-- Tensor payload: `Float32Array` contents as rationals, `BigInt64Array`
contents as integers. -/
inductive TData
  | fd (xs : List ℚ)
  | id (xs : List ℤ)
deriving DecidableEq

/-- A shallow ONNX tensor: dims plus typed data. -/
structure Tensor where
  dims : List ℕ
  tdata : TData
deriving DecidableEq

/-- The dtype carried by a tensor's data. -/
def Tensor.dty (t : Tensor) : Dty :=
  match t.tdata with
  | .fd _ => .f32
  | .id _ => .i64

/-- Zero-filled payload of a given dtype and element count (`fill(0)` /
`fill(BigInt(0))` in tts-client.js lines 796-808). -/
def dtyZeros (d : Dty) (size : ℕ) : TData :=
  match d with
  | .f32 => .fd (List.replicate size 0)
  | .i64 => .id (List.replicate size 0)

/-- A zero-filled tensor of the given shape and dtype; the element count is
`shape.reduce((a, b) => a * b, 1)`. -/
def zeroTensor (shape : List ℕ) (d : Dty) : Tensor :=
  Tensor.mk shape (dtyZeros d (shape.foldl (· * ·) 1))

/-- The discovered-shape fallback table of `buildStateShapeMap`
(tts-client.js lines 706-720). -/
def discoveredShapes (n : String) : Option (List ℕ) :=
  if n = "state_0" then some [2, 1, 1000, 16, 64]
  else if n = "state_1" then some [0]
  else if n = "state_2" then some [1]
  else if n = "state_3" then some [2, 1, 1000, 16, 64]
  else if n = "state_4" then some [0]
  else if n = "state_5" then some [1]
  else if n = "state_6" then some [2, 1, 1000, 16, 64]
  else if n = "state_7" then some [0]
  else if n = "state_8" then some [1]
  else if n = "state_9" then some [2, 1, 1000, 16, 64]
  else if n = "state_10" then some [1]
  else if n = "state_11" then some [1]
  else if n = "state_12" then some [2, 1, 1000, 16, 64]
  else if n = "state_13" then some [1]
  else if n = "state_14" then some [1]
  else if n = "state_15" then some [2, 1, 1000, 16, 64]
  else if n = "state_16" then some [1]
  else if n = "state_17" then some [1]
  else none

/-- `int64States = Set(['state_2', 'state_5'])` (tts-client.js line 724). -/
def int64States : List String := ["state_2", "state_5"]

/-- Per-slot dtype of `buildStateShapeMap` (tts-client.js line 742). -/
def stateDtype (n : String) : Dty :=
  if n ∈ int64States then .i64 else .f32

/-- Per-slot shape of `buildStateShapeMap` (tts-client.js lines 727-739):
session metadata when available, else the discovered table, else `[1]`. -/
def stateShape (meta : String → Option (List ℕ)) (n : String) : List ℕ :=
  match meta n with
  | some dims => dims
  | none =>
    match discoveredShapes n with
    | some d => d
    | none => [1]

/-- JS `String.prototype.startsWith`, computed on the character lists. -/
def strStartsWith (s pre : String) : Bool :=
  pre.toList.isPrefixOf s.toList

/-- The declared state inputs: every session input whose name begins with
`state_`. -/
def stateInputNames (inputNames : List String) : List String :=
  inputNames.filter (fun n => strStartsWith n "state_")

/-- Initial flow state of the tts-client worker (tts-client.js lines 785-814):
one zero-filled tensor per declared state input, with that slot's shape and
dtype. -/
def clientInitFlowState (meta : String → Option (List ℕ)) (stateNames : List String) :
    List (String × Tensor) :=
  stateNames.map (fun n => (n, zeroTensor (stateShape meta n) (stateDtype n)))

/-- The initial flow state of src/tts/tts-worker.js line 293: an empty
object; no state slot is initialized before voice conditioning. -/
def workerInitFlowState : List (String × Tensor) := []

/-- The initial flow state of src/unnamed/part_010 lines 313-321: only
`state_0` is zero-filled (shape `[2,1,1000,16,64]`, f32); `state_1`-`state_17`
are deliberately left out. -/
def part010InitFlowState (inputNames : List String) : List (String × Tensor) :=
  inputNames.foldl
    (fun acc n =>
      if n = "state_0" then acc ++ [(n, zeroTensor [2, 1, 1000, 16, 64] .f32)] else acc)
    []

/-- The key set of a backbone run's input map
`{ sequence, text_embeddings, ...flowState }`. -/
def runInputKeys (st : List (String × Tensor)) : List String :=
  "sequence" :: "text_embeddings" :: st.map Prod.fst

/-- `name.replace('out_state_', '')` guarded by
`name.startsWith('out_state_')`: the index part after the 10-character tag. -/
def outStateIdx (name : String) : Option String :=
  if strStartsWith name "out_state_" then some ((name.toList.drop 10).asString) else none

/-- JS object property assignment `flowState['state_' + idx] = tensor`:
replace the entry if the key exists (keeping its position), else append. -/
def setEntry (es : List (String × Tensor)) (k : String) (v : Tensor) :
    List (String × Tensor) :=
  if es.any (fun e => e.1 = k) then es.map (fun e => if e.1 = k then (k, v) else e)
  else es ++ [(k, v)]

/-- Dtype coercion of the tts-client state propagation (tts-client.js lines
844-864): a float32 output expected as int64 is converted element-wise by
`BigInt(Math.round(v))`; an int64 output expected as float32 by `Number(v)`;
matching dtypes pass through unchanged. -/
def coerceTensor (expected : Dty) (t : Tensor) : Tensor :=
  match expected, t.tdata with
  | .i64, .fd xs => Tensor.mk t.dims (.id (xs.map jsRound))
  | .f32, .id xs => Tensor.mk t.dims (.fd (xs.map (fun z => (z : ℚ))))
  | _, _ => t

/-- State propagation of the tts-client worker (tts-client.js lines 837-870,
892-925, 978-1010): for every output named `out_state_i`, store the output in
`state_i`, coerced to that slot's expected dtype. -/
def clientPropagate (typeOf : String → Dty) (outNames : List String)
    (result : String → Tensor) (st : List (String × Tensor)) :
    List (String × Tensor) :=
  outNames.foldl
    (fun acc name =>
      match outStateIdx name with
      | some idx =>
        setEntry acc ("state_" ++ idx) (coerceTensor (typeOf ("state_" ++ idx)) (result name))
      | none => acc)
    st

/-- State propagation of src/tts/tts-worker.js lines 299-305, 324-330 and
379-386 (and src/unnamed/part_010): the output tensor is stored unchanged,
with no dtype coercion. -/
def workerPropagate (outNames : List String) (result : String → Tensor)
    (st : List (String × Tensor)) : List (String × Tensor) :=
  outNames.foldl
    (fun acc name =>
      match outStateIdx name with
      | some idx => setEntry acc ("state_" ++ idx) (result name)
      | none => acc)
    st

/-- The key sets of the successive backbone runs of one tts-client synthesis
(voice conditioning, text conditioning, then AR steps), threading the state
bundle through `clientPropagate` with the per-run session outputs
`results`. -/
def clientKeyTraceAux (outNames : List String) (results : ℕ → String → Tensor) :
    ℕ → ℕ → List (String × Tensor) → List (List String)
  | _, 0, _ => []
  | run, count + 1, st =>
    runInputKeys st ::
      clientKeyTraceAux outNames results (run + 1) count
        (clientPropagate stateDtype outNames (results run) st)

/-- Key trace of a whole synthesis with `runs` backbone runs, starting from
the zero-initialized bundle. -/
def clientKeyTrace (meta : String → Option (List ℕ)) (inputNames outNames : List String)
    (results : ℕ → String → Tensor) (runs : ℕ) : List (List String) :=
  clientKeyTraceAux outNames results 0 runs
    (clientInitFlowState meta (stateInputNames inputNames))

/-- Association lookup in the state bundle. -/
def lookupTensor : List (String × Tensor) → String → Option Tensor
  | [], _ => none
  | (k2, v) :: t, k => if k2 = k then some v else lookupTensor t k

lemma setEntry_keys (es : List (String × Tensor)) (k : String) (v : Tensor) (k2 : String)
    (h : k2 ∈ es.map Prod.fst) : k2 ∈ (setEntry es k v).map Prod.fst := by
  unfold setEntry
  by_cases hany : es.any (fun e => e.1 = k)
  · rw [if_pos hany]
    have : (es.map (fun e => if e.1 = k then (k, v) else e)).map Prod.fst = es.map Prod.fst := by
      rw [List.map_map]
      apply List.map_congr_left
      intro e _
      by_cases he : e.1 = k
      · simp [he]
      · simp [he]
    rw [this]
    exact h
  · rw [if_neg hany, List.map_append]
    exact List.mem_append_left _ h

lemma clientPropagate_keys (typeOf : String → Dty) (outNames : List String)
    (result : String → Tensor) (st : List (String × Tensor)) (k2 : String)
    (h : k2 ∈ st.map Prod.fst) :
    k2 ∈ (clientPropagate typeOf outNames result st).map Prod.fst := by
  induction outNames generalizing st with
  | nil => exact h
  | cons n rest ih =>
    unfold clientPropagate
    rw [List.foldl_cons]
    cases ho : outStateIdx n with
    | none =>
      simp only [ho]
      exact ih st h
    | some idx =>
      simp only [ho]
      exact ih _ (setEntry_keys st _ _ k2 h)

lemma clientKeyTraceAux_covers (outNames : List String) (results : ℕ → String → Tensor)
    (count run : ℕ) (st : List (String × Tensor)) (names : List String)
    (h : ∀ n ∈ names, n ∈ st.map Prod.fst) :
    ∀ ks ∈ clientKeyTraceAux outNames results run count st, ∀ n ∈ names, n ∈ ks := by
  induction count generalizing run st with
  | zero => simp [clientKeyTraceAux]
  | succ count ih =>
    intro ks hks n hn
    simp only [clientKeyTraceAux] at hks
    rcases List.mem_cons.mp hks with h1 | h1
    · subst h1
      unfold runInputKeys
      exact List.mem_cons_of_mem _ (List.mem_cons_of_mem _ (h n hn))
    · exact ih (run + 1) _ (fun n2 hn2 => clientPropagate_keys _ _ _ _ n2 (h n2 hn2)) ks h1 n hn

/-- C1, amended. In the tts-client inline worker the state bundle is built,
before voice conditioning, with one zero-filled tensor per declared `state_i`
input, of that slot's session-reported (or fallback) shape and dtype, and
every backbone run of the synthesis (voice conditioning, text conditioning
and each AR step) supplies every declared `state_i` input. In
src/tts/tts-worker.js the bundle instead starts empty, and in
src/unnamed/part_010 only `state_0` is initialized, so there the
voice-conditioning run does not supply the other declared slots. -/
theorem c1_state_bundle_client (meta : String → Option (List ℕ))
    (inputNames outNames : List String) (results : ℕ → String → Tensor) (runs : ℕ) :
    (∀ n ∈ stateInputNames inputNames,
      (n, zeroTensor (stateShape meta n) (stateDtype n)) ∈
        clientInitFlowState meta (stateInputNames inputNames)) ∧
    (∀ ks ∈ clientKeyTrace meta inputNames outNames results runs,
      ∀ n ∈ stateInputNames inputNames, n ∈ ks) := by
  constructor
  · intro n hn
    unfold clientInitFlowState
    exact List.mem_map.mpr ⟨n, hn, rfl⟩
  · unfold clientKeyTrace
    apply clientKeyTraceAux_covers
    intro n hn
    unfold clientInitFlowState
    rw [List.map_map]
    simpa using hn

/-- C1 witness: a backbone declaring `state_0` with metadata dims `[1]`; the
initial bundle holds its zero tensor and the first run's input keys include
it. -/
theorem c1_state_bundle_client_witness :
    ("state_0", zeroTensor (stateShape (fun _ => some [1]) "state_0") (stateDtype "state_0"))
      ∈ clientInitFlowState (fun _ => some [1])
          (stateInputNames ["sequence", "text_embeddings", "state_0"]) ∧
    "state_0" ∈ runInputKeys (clientInitFlowState (fun _ => some [1])
          (stateInputNames ["sequence", "text_embeddings", "state_0"])) :=
  ⟨(c1_state_bundle_client (fun _ => some [1]) ["sequence", "text_embeddings", "state_0"]
      ["out_state_0"] (fun _ _ => Tensor.mk [1] (TData.fd [0])) 3).1 "state_0" (by decide),
   (c1_state_bundle_client (fun _ => some [1]) ["sequence", "text_embeddings", "state_0"]
      ["out_state_0"] (fun _ _ => Tensor.mk [1] (TData.fd [0])) 3).2
     (runInputKeys (clientInitFlowState (fun _ => some [1])
       (stateInputNames ["sequence", "text_embeddings", "state_0"])))
     (by decide) "state_0" (by decide)⟩

/-- C1 counterexample: in src/tts/tts-worker.js the bundle before voice
conditioning is empty - no zero-filled tensors - and for a backbone declaring
`state_0` the voice-conditioning run's inputs do not include it; in
src/unnamed/part_010 only `state_0` is initialized, so a declared `state_1`
is not supplied either. -/
theorem c1_state_bundle_counterexample :
    workerInitFlowState = [] ∧
    "state_0" ∈ stateInputNames ["sequence", "text_embeddings", "state_0"] ∧
    "state_0" ∉ runInputKeys workerInitFlowState ∧
    (part010InitFlowState ["sequence", "text_embeddings", "state_0", "state_1"]).map Prod.fst
      = ["state_0"] ∧
    "state_1" ∉ runInputKeys
      (part010InitFlowState ["sequence", "text_embeddings", "state_0", "state_1"]) := by
  refine ⟨rfl, by decide, by decide, by decide, by decide⟩

lemma lookupTensor_append_hit (es : List (String × Tensor)) (k : String) (v : Tensor)
    (h : es.any (fun e => e.1 = k) = false) :
    lookupTensor (es ++ [(k, v)]) k = some v := by
  induction es with
  | nil => simp [lookupTensor]
  | cons hd t ih =>
    obtain ⟨k2, w⟩ := hd
    simp only [List.any_cons, Bool.or_eq_false_iff] at h
    have hk : ¬ k2 = k := by simpa using h.1
    simp only [List.cons_append, lookupTensor, if_neg hk]
    exact ih h.2

lemma lookupTensor_replace_hit (es : List (String × Tensor)) (k : String) (v : Tensor)
    (h : es.any (fun e => e.1 = k) = true) :
    lookupTensor (es.map (fun e => if e.1 = k then (k, v) else e)) k = some v := by
  induction es with
  | nil => simp at h
  | cons hd t ih =>
    obtain ⟨k2, w⟩ := hd
    by_cases hk : k2 = k
    · subst hk
      simp only [List.map_cons, if_true]
      simp [lookupTensor]
    · simp only [List.any_cons] at h
      have h2 : t.any (fun e => e.1 = k) = true := by
        rcases Bool.or_eq_true_iff.mp h with h1 | h1
        · exact absurd (by simpa using h1) hk
        · exact h1
      simp only [List.map_cons]
      rw [show (if (k2, w).1 = k then (k, v) else (k2, w)) = (k2, w) by simp [hk]]
      simp only [lookupTensor, if_neg hk]
      exact ih h2

lemma lookup_setEntry (es : List (String × Tensor)) (k : String) (v : Tensor) :
    lookupTensor (setEntry es k v) k = some v := by
  unfold setEntry
  by_cases hany : es.any (fun e => e.1 = k)
  · rw [if_pos hany]
    exact lookupTensor_replace_hit es k v hany
  · rw [if_neg hany]
    exact lookupTensor_append_hit es k v (Bool.eq_false_iff.mpr hany)

lemma clientPropagate_single (typeOf : String → Dty) (name idx : String)
    (h : outStateIdx name = some idx) (result : String → Tensor)
    (st : List (String × Tensor)) :
    lookupTensor (clientPropagate typeOf [name] result st) ("state_" ++ idx)
      = some (coerceTensor (typeOf ("state_" ++ idx)) (result name)) := by
  unfold clientPropagate
  rw [List.foldl_cons, List.foldl_nil, h]
  exact lookup_setEntry st _ _

/-- C3, amended. In the tts-client inline worker, every `out_state_i` output
whose dtype differs from the expected dtype of `state_i` is converted
element-wise before propagation - f32 to i64 by `Math.round` then `BigInt`
(round half toward positive infinity, then widen), i64 to f32 by `Number`
(widening); in particular an f32 `out_state_2` holding 3.7 is stored into the
i64 slot `state_2` as 4, and an i64 output into an f32 slot is widened. In
src/tts/tts-worker.js (the claim's cited lines) the output is propagated
unchanged with no conversion. -/
theorem c3_state_dtype_coercion :
    (∀ (typeOf : String → Dty) (name idx : String) (result : String → Tensor)
        (st : List (String × Tensor)),
      outStateIdx name = some idx →
      lookupTensor (clientPropagate typeOf [name] result st) ("state_" ++ idx)
        = some (coerceTensor (typeOf ("state_" ++ idx)) (result name))) ∧
    (∀ (result : String → Tensor) (st : List (String × Tensor)),
      result "out_state_2" = Tensor.mk [1] (TData.fd [37/10]) →
      lookupTensor (clientPropagate stateDtype ["out_state_2"] result st) "state_2"
        = some (Tensor.mk [1] (TData.id [4]))) ∧
    (∀ (result : String → Tensor) (st : List (String × Tensor)),
      result "out_state_0" = Tensor.mk [2] (TData.id [5, -3]) →
      lookupTensor (clientPropagate stateDtype ["out_state_0"] result st) "state_0"
        = some (Tensor.mk [2] (TData.fd [5, -3]))) := by
  refine ⟨?_, ?_, ?_⟩
  · intro typeOf name idx result st h
    exact clientPropagate_single typeOf name idx h result st
  · intro result st hres
    have h := clientPropagate_single stateDtype "out_state_2" "2" (by decide) result st
    rw [show "state_" ++ "2" = "state_2" from rfl] at h
    rw [h, hres]
    have hdt : stateDtype "state_2" = Dty.i64 := by decide
    rw [hdt]
    simp only [coerceTensor]
    have hr : jsRound (37/10) = 4 := by
      unfold jsRound
      rw [show (37 : ℚ)/10 + 1/2 = 21/5 by norm_num]
      rw [Int.floor_eq_iff]
      constructor <;> norm_num
    simp [hr]
  · intro result st hres
    have h := clientPropagate_single stateDtype "out_state_0" "0" (by decide) result st
    rw [show "state_" ++ "0" = "state_0" from rfl] at h
    rw [h, hres]
    have hdt : stateDtype "state_0" = Dty.f32 := by decide
    rw [hdt]
    simp [coerceTensor]

/-- C3 witness: the coercion theorem at the scenario S6 input, an f32
`out_state_2` with value 3.7 entering the i64 slot `state_2`. -/
theorem c3_state_dtype_coercion_witness :
    lookupTensor (clientPropagate stateDtype ["out_state_2"]
        (fun _ => Tensor.mk [1] (TData.fd [37/10])) []) "state_2"
      = some (Tensor.mk [1] (TData.id [4])) :=
  (c3_state_dtype_coercion).2.1 (fun _ => Tensor.mk [1] (TData.fd [37/10])) [] rfl

/-- C3 counterexample: the propagation at the claim's cited lines
(src/tts/tts-worker.js 379-386) stores the f32 output 3.7 into `state_2`
unchanged - the next-step input is f32 3.7, not i64 4. -/
theorem c3_state_dtype_coercion_counterexample :
    lookupTensor (workerPropagate ["out_state_2"]
        (fun _ => Tensor.mk [1] (TData.fd [37/10])) []) "state_2"
      = some (Tensor.mk [1] (TData.fd [37/10])) ∧
    (Tensor.mk [1] (TData.fd [37/10])).dty ≠ Dty.i64 ∧
    Tensor.mk [1] (TData.fd [37/10]) ≠ Tensor.mk [1] (TData.id [4]) := by
  refine ⟨rfl, by decide, ?_⟩
  intro h
  injection h with h1 h2
  exact TData.noConfusion h2

/-- The under-20 number words of `numberToWords` (tts-worker.js lines
269-270), indexed by `n - 1`. -/
def smallNumberWords : List String :=
  ["one", "two", "three", "four", "five", "six", "seven", "eight", "nine", "ten",
   "eleven", "twelve", "thirteen", "fourteen", "fifteen", "sixteen", "seventeen",
   "eighteen", "nineteen"]

/-- The tens words of `numberToWords` (tts-worker.js line 272), indexed by
`n / 10 - 2`. -/
def tensNumberWords : List String :=
  ["twenty", "thirty", "forty", "fifty", "sixty", "seventy", "eighty", "ninety"]

/-- `numberToWords` from src/tts/tts-worker.js lines 267-279; fuel-driven
(recursion depth is at most 3: hundreds, then tens, then units), with
`n.toString()` as the fallback for `n ≥ 1000`. -/
def numberToWordsAux : ℕ → ℕ → String
  | 0, n => toString n
  | fuel + 1, n =>
    if n = 0 then "zero"
    else if n < 20 then smallNumberWords.getD (n - 1) ""
    else if n < 100 then
      tensNumberWords.getD (n / 10 - 2) "" ++
        (if n % 10 ≠ 0 then " " ++ numberToWordsAux fuel (n % 10) else "")
    else if n < 1000 then
      numberToWordsAux fuel (n / 100) ++ " hundred" ++
        (if n % 100 ≠ 0 then " " ++ numberToWordsAux fuel (n % 100) else "")
    else toString n

/-- `numberToWords` with enough fuel for every case. -/
def numberToWords (n : ℕ) : String := numberToWordsAux 3 n

/-- `parseInt` on a run of decimal digits. -/
def digitsToNat (ds : List Char) : ℕ :=
  ds.foldl (fun a c => a * 10 + (c.toNat - 48)) 0

/-- `text.replace(/\d+/g, m => numberToWords(parseInt(m)))` (tts-worker.js
lines 255-257): replace every maximal digit run by its spelled-out form.
Fuel-driven; `cs.length` suffices since each step consumes at least one
character. -/
def replaceDigitsAux : ℕ → List Char → List Char
  | 0, cs => cs
  | fuel + 1, cs =>
    match cs with
    | [] => []
    | c :: cs2 =>
      if c.isDigit then
        (numberToWords (digitsToNat ((c :: cs2).takeWhile Char.isDigit))).toList ++
          replaceDigitsAux fuel ((c :: cs2).dropWhile Char.isDigit)
      else c :: replaceDigitsAux fuel cs2

/-- `preprocessText` from src/tts/tts-worker.js lines 249-265: trim; empty
input short-circuits to the empty string; normalize digit runs; append `.`
unless the text already ends in terminal punctuation. -/
def preprocessText (text : String) : String :=
  let t := trimJs text.toList
  if t.isEmpty then ""
  else
    let t2 := replaceDigitsAux t.length t
    match t2.getLast? with
    | some c => if isPunct c then t2.asString else (t2 ++ ['.']).asString
    | none => (t2 ++ ['.']).asString

/-- The pre-inference part of `generateSpeech` (src/tts/tts-worker.js lines
220-241) with the tokenizer abstracted as `enc`: the only failure is the
missing-voice check; the (possibly empty) preprocessed text is always handed
to the tokenizer. -/
def generateSpeechTokens (voiceAvailable : Bool) (enc : String → List ℤ)
    (text : String) : Except String (List ℤ) :=
  if ¬ voiceAvailable then Except.error "No voice selected"
  else Except.ok (enc (preprocessText text))

/-- The `/tts` route guard of src/server-middleware.js lines 78-83: a
strictly empty `text` is rejected with HTTP 400 before synthesis; any
non-empty string (including whitespace-only) passes. -/
def ttsRouteValidation (text : String) : Option ℕ :=
  if text = "" then some 400 else none

/-- C7, amended. `generateSpeech` raises no input error for empty or
whitespace-only text: `preprocessText` maps it to the empty string (skipping
the append-`.` step) and the tokenizer is invoked on that empty string. Only
the HTTP layer rejects a strictly empty `text` field, with a 400, and a
whitespace-only text passes even that check. -/
theorem c7_empty_text (text : String) (enc : String → List ℤ)
    (h : trimJs text.toList = []) :
    preprocessText text = "" ∧
    generateSpeechTokens true enc text = Except.ok (enc "") ∧
    ttsRouteValidation "" = some 400 ∧
    ttsRouteValidation " " = none := by
  have hp : preprocessText text = "" := by
    unfold preprocessText
    rw [h]
    rfl
  refine ⟨hp, ?_, rfl, by decide⟩
  unfold generateSpeechTokens
  rw [hp]
  rfl

/-- C7 witness: the amended theorem at the whitespace-only input `" "`. -/
theorem c7_empty_text_witness :
    preprocessText " " = "" ∧
    generateSpeechTokens true (fun s => [(s.toList.length : ℤ)]) " "
      = Except.ok [(("" : String).toList.length : ℤ)] ∧
    ttsRouteValidation "" = some 400 ∧
    ttsRouteValidation " " = none :=
  c7_empty_text " " (fun s => [(s.toList.length : ℤ)]) (by decide)

/-- C7 counterexample: for the whitespace-only input `" "` the worker does
not fail before tokenization - it tokenizes the empty string and returns its
(empty) token ids. -/
theorem c7_empty_text_counterexample :
    generateSpeechTokens true (fun s => s.toList.map (fun c => (c.toNat : ℤ))) " "
      = Except.ok [] := by
  rfl

/-- One TTS model asset: name and minimum byte threshold (0.8 x nominal
size). -/
structure TtsFile where
  name : String
  minBytes : ℚ
deriving DecidableEq

/-- `TTS_FILES` from src/tts-models.js lines 6-13, thresholds
`size * 0.8`. -/
def TTS_FILES : List TtsFile :=
  [TtsFile.mk "mimi_encoder.onnx" (73 * 1024 * 1024 * (8/10)),
   TtsFile.mk "text_conditioner.onnx" (16 * 1024 * 1024 * (8/10)),
   TtsFile.mk "flow_lm_main_int8.onnx" (76 * 1024 * 1024 * (8/10)),
   TtsFile.mk "flow_lm_flow_int8.onnx" (10 * 1024 * 1024 * (8/10)),
   TtsFile.mk "mimi_decoder_int8.onnx" (23 * 1024 * 1024 * (8/10)),
   TtsFile.mk "tokenizer.model" (59 * 1024 * (8/10))]

/-- `isFileCorrupted` from src/unnamed/part_005 lines 72-82: a missing file
(where `statSync` throws) is corrupted; with a threshold, a file smaller than
it is corrupted; otherwise not. The filesystem is a map from file name to its
size when the file exists. -/
def isFileCorrupted (size : Option ℕ) (minSizeBytes : Option ℚ) : Bool :=
  match size with
  | none => true
  | some sz =>
    match minSizeBytes with
    | some m => decide ((sz : ℚ) < m)
    | none => false

/-- What `downloadTTSModels` does per file. -/
inductive DlAction
  | skip
  | redownload
  | download
deriving DecidableEq

/-- Per-file behavior of `downloadTTSModels` (src/tts-models.js lines 46-69):
an existing file is skipped unless corrupted, a corrupted file is deleted and
re-downloaded, a missing file is downloaded. -/
def downloadActions (fs : String → Option ℕ) : List (String × DlAction) :=
  TTS_FILES.map (fun f =>
    (f.name,
      match fs f.name with
      | some _ =>
        if isFileCorrupted (fs f.name) (some f.minBytes) then DlAction.redownload
        else DlAction.skip
      | none => DlAction.download))

/-- C8. For every TTS model file: present with size at least the 0.8-nominal
threshold, it is skipped and no download is issued for it; present below the
threshold, it is deleted and re-downloaded; missing, it is downloaded. -/
theorem c8_integrity_predicate (fs : String → Option ℕ) (f : TtsFile)
    (hf : f ∈ TTS_FILES) :
    (∀ sz, fs f.name = some sz → f.minBytes ≤ (sz : ℚ) →
      (f.name, DlAction.skip) ∈ downloadActions fs) ∧
    (∀ sz, fs f.name = some sz → (sz : ℚ) < f.minBytes →
      (f.name, DlAction.redownload) ∈ downloadActions fs) ∧
    (fs f.name = none → (f.name, DlAction.download) ∈ downloadActions fs) := by
  refine ⟨?_, ?_, ?_⟩
  · intro sz hsz hge
    apply List.mem_map.mpr
    refine ⟨f, hf, ?_⟩
    rw [hsz]
    simp only [isFileCorrupted]
    rw [if_neg (by simp only [decide_eq_true_eq, not_lt]; exact hge)]
  · intro sz hsz hlt
    apply List.mem_map.mpr
    refine ⟨f, hf, ?_⟩
    rw [hsz]
    simp only [isFileCorrupted]
    rw [if_pos (by simp only [decide_eq_true_eq]; exact hlt)]
  · intro hnone
    apply List.mem_map.mpr
    refine ⟨f, hf, ?_⟩
    rw [hnone]

/-- C8 witness: on an empty filesystem the first model file is scheduled for
download; on a filesystem where it already has its nominal size it is
skipped. -/
theorem c8_integrity_predicate_witness :
    ("mimi_encoder.onnx", DlAction.download) ∈ downloadActions (fun _ => none) ∧
    ("mimi_encoder.onnx", DlAction.skip) ∈ downloadActions
      (fun n => if n = "mimi_encoder.onnx" then some (73 * 1024 * 1024) else none) ∧
    ("mimi_encoder.onnx", DlAction.redownload) ∈ downloadActions
      (fun n => if n = "mimi_encoder.onnx" then some 1024 else none) :=
  ⟨(c8_integrity_predicate (fun _ => none)
      (TtsFile.mk "mimi_encoder.onnx" (73 * 1024 * 1024 * (8/10)))
      (List.mem_cons_self _ _)).2.2 rfl,
   (c8_integrity_predicate
      (fun n => if n = "mimi_encoder.onnx" then some (73 * 1024 * 1024) else none)
      (TtsFile.mk "mimi_encoder.onnx" (73 * 1024 * 1024 * (8/10)))
      (List.mem_cons_self _ _)).1 (73 * 1024 * 1024) (by simp) (by norm_num),
   (c8_integrity_predicate
      (fun n => if n = "mimi_encoder.onnx" then some 1024 else none)
      (TtsFile.mk "mimi_encoder.onnx" (73 * 1024 * 1024 * (8/10)))
      (List.mem_cons_self _ _)).2.1 1024 (by simp) (by norm_num)⟩

/-- One HTTPS response observed by `downloadFile`: either a response with a
status code and (for redirects) a `location` header, or a network error event
(the oracle list supplies one entry per `https.get` call, in order). -/
inductive HttpResp
  | resp (code : ℕ) (loc : String)
  | netError
deriving DecidableEq

/-- Filesystem and timer effects of `downloadFile`, in order:
`fs.createWriteStream(path)` (opens the destination itself for writing),
`fs.unlinkSync(path)`, and the `setTimeout` backoff delay. There is no
temp-file or rename effect anywhere in the function. -/
inductive FsEvent
  | createStream (path : String)
  | unlink (path : String)
  | delayMs (ms : ℕ)
deriving DecidableEq

/-- Final promise state of `downloadFile`. -/
inductive DlOutcome
  | resolved
  | rejected
  | noResponse
deriving DecidableEq

/-- `downloadFile` from src/unnamed/part_005 lines 24-70: open a write
stream directly on `dest`, issue the GET; on 301/302/307/308 delete the
partial file and follow `location` with the same attempt counter; on any
other non-200 code or a network error delete the partial file and, while
`attempt < maxRetries - 1`, retry after `2^attempt * 1000` ms, else reject;
on 200 stream the body into `dest` and resolve. Returns the effect trace and
the outcome; an empty oracle means the request never completed. -/
def downloadFile (resps : List HttpResp) (url dest : String)
    (maxRetries attempt : ℕ) : List FsEvent × DlOutcome :=
  match resps with
  | [] => ([], DlOutcome.noResponse)
  | r :: rest =>
    match r with
    | .resp code loc =>
      if code = 302 ∨ code = 301 ∨ code = 307 ∨ code = 308 then
        let next := downloadFile rest loc dest maxRetries attempt
        (FsEvent.createStream dest :: FsEvent.unlink dest :: next.1, next.2)
      else if code ≠ 200 then
        if attempt < maxRetries - 1 then
          let next := downloadFile rest url dest maxRetries (attempt + 1)
          (FsEvent.createStream dest :: FsEvent.unlink dest ::
            FsEvent.delayMs (2 ^ attempt * 1000) :: next.1, next.2)
        else ([FsEvent.createStream dest, FsEvent.unlink dest], DlOutcome.rejected)
      else ([FsEvent.createStream dest], DlOutcome.resolved)
    | .netError =>
      if attempt < maxRetries - 1 then
        let next := downloadFile rest url dest maxRetries (attempt + 1)
        (FsEvent.createStream dest :: FsEvent.unlink dest ::
          FsEvent.delayMs (2 ^ attempt * 1000) :: next.1, next.2)
      else ([FsEvent.createStream dest, FsEvent.unlink dest], DlOutcome.rejected)

lemma downloadFile_cons_resp (rest : List HttpResp) (url dest loc : String)
    (maxRetries attempt code : ℕ) :
    downloadFile (HttpResp.resp code loc :: rest) url dest maxRetries attempt
      = if code = 302 ∨ code = 301 ∨ code = 307 ∨ code = 308 then
          (FsEvent.createStream dest :: FsEvent.unlink dest ::
            (downloadFile rest loc dest maxRetries attempt).1,
           (downloadFile rest loc dest maxRetries attempt).2)
        else if code ≠ 200 then
          if attempt < maxRetries - 1 then
            (FsEvent.createStream dest :: FsEvent.unlink dest ::
              FsEvent.delayMs (2 ^ attempt * 1000) ::
              (downloadFile rest url dest maxRetries (attempt + 1)).1,
             (downloadFile rest url dest maxRetries (attempt + 1)).2)
          else ([FsEvent.createStream dest, FsEvent.unlink dest], DlOutcome.rejected)
        else ([FsEvent.createStream dest], DlOutcome.resolved) := rfl

/-- C9, amended. `downloadFile` issues an HTTPS GET that follows
301/302/307/308 redirects (deleting the partial file and keeping the attempt
counter), streams the response body directly to the destination path - there
is no temporary file and no rename - and on a non-200 final response or
network error deletes the partial file and retries after `2^attempt` seconds
while attempts remain (up to `maxRetries` = 3 attempts), rejecting
afterwards; a 200 response resolves with only the destination stream
opened. -/
theorem c9_download_behavior (rest : List HttpResp) (url dest loc : String)
    (maxRetries attempt code : ℕ) :
    (code = 302 ∨ code = 301 ∨ code = 307 ∨ code = 308 →
      downloadFile (HttpResp.resp code loc :: rest) url dest maxRetries attempt
        = (FsEvent.createStream dest :: FsEvent.unlink dest ::
            (downloadFile rest loc dest maxRetries attempt).1,
           (downloadFile rest loc dest maxRetries attempt).2)) ∧
    (¬ (code = 302 ∨ code = 301 ∨ code = 307 ∨ code = 308) → code ≠ 200 →
      attempt < maxRetries - 1 →
      downloadFile (HttpResp.resp code loc :: rest) url dest maxRetries attempt
        = (FsEvent.createStream dest :: FsEvent.unlink dest ::
            FsEvent.delayMs (2 ^ attempt * 1000) ::
            (downloadFile rest url dest maxRetries (attempt + 1)).1,
           (downloadFile rest url dest maxRetries (attempt + 1)).2)) ∧
    (¬ (code = 302 ∨ code = 301 ∨ code = 307 ∨ code = 308) → code ≠ 200 →
      ¬ attempt < maxRetries - 1 →
      downloadFile (HttpResp.resp code loc :: rest) url dest maxRetries attempt
        = ([FsEvent.createStream dest, FsEvent.unlink dest], DlOutcome.rejected)) ∧
    (downloadFile (HttpResp.resp 200 loc :: rest) url dest maxRetries attempt
      = ([FsEvent.createStream dest], DlOutcome.resolved)) := by
  refine ⟨?_, ?_, ?_, ?_⟩
  · intro hc
    rw [downloadFile_cons_resp, if_pos hc]
  · intro hc h200 hatt
    rw [downloadFile_cons_resp, if_neg hc, if_pos h200, if_pos hatt]
  · intro hc h200 hatt
    rw [downloadFile_cons_resp, if_neg hc, if_pos h200, if_neg hatt]
  · rw [downloadFile_cons_resp, if_neg (by norm_num), if_neg (by norm_num)]

/-- C9 witness: a 404 followed by a redirect and a 200 - first attempt
deletes the partial file and backs off one second, the redirect is followed,
and the final write goes directly to the destination with no rename. -/
theorem c9_download_behavior_witness :
    downloadFile [HttpResp.resp 404 "", HttpResp.resp 302 "u2", HttpResp.resp 200 ""]
        "u" "d" 3 0
      = ([FsEvent.createStream "d", FsEvent.unlink "d", FsEvent.delayMs 1000,
          FsEvent.createStream "d", FsEvent.unlink "d",
          FsEvent.createStream "d"], DlOutcome.resolved) := by
  rw [(c9_download_behavior [HttpResp.resp 302 "u2", HttpResp.resp 200 ""]
    "u" "d" "" 3 0 404).2.1 (by norm_num) (by norm_num) (by norm_num)]
  rw [(c9_download_behavior [HttpResp.resp 200 ""] "u" "d" "u2" 3 1 302).1 (by norm_num)]
  rw [(c9_download_behavior [] "u2" "d" "" 3 1 200).2.2.2]
  norm_num

/-- C9 counterexample: on a direct 200 response the entire effect trace is a
single write stream opened on the destination path itself - there is no
temporary file in the destination directory and no atomic rename onto the
destination. -/
theorem c9_download_behavior_counterexample :
    downloadFile [HttpResp.resp 200 ""] "https://host/file" "/models/tts/file.onnx" 3 0
      = ([FsEvent.createStream "/models/tts/file.onnx"], DlOutcome.resolved) := by
  rfl

end Webtalk
